import Mathlib

/-!
Verification of the core retrieval-and-synthesis pipeline of the
insurance document question-answering service.

The development shallowly embeds the Python sources
(`document_processor.py`, `semantic_search.py`, `decision_engine.py`,
`main.py`).  Python strings are modelled as `List Char` (wrapped in
`String` where convenient), floating point scores as `ℚ`, JSON values
as the inductive `PyVal`, and every fallible external capability
(embedding provider, completion provider) as an injected function
returning `Except String _`.
-/

/-! ### Python string primitives

Helpers mirroring the Python string operations used by the sources:
`in` (substring test), `str.find`, `str.rfind`, slicing with negative
indices, `str.strip`, `str.lower`.  In Python, `find`/`rfind` return `-1`
when the needle is absent, and that `-1` then flows into slices as a
negative index, so the model keeps the `Int` convention. -/

/-- The ASCII whitespace characters stripped by the Python `str.strip()` method
and matched by the regex class `\s` (the sources only ever meet ASCII
whitespace). -/
def isPySpace (c : Char) : Bool :=
  c = ' ' || c = '\t' || c = '\n' || c = '\r' || c = '\x0b' || c = '\x0c'

/-- `matchesAt sub s` : does `sub` occur as a prefix of `s`? -/
def matchesAt : List Char → List Char → Bool
  | [], _ => true
  | _ :: _, [] => false
  | c :: p, d :: s => c = d && matchesAt p s

/-- Index of the first occurrence of `sub` in `s` (Python `str.find`,
`some`-valued). -/
def findIdx (sub : List Char) : List Char → Option Nat
  | [] => if matchesAt sub [] then some 0 else none
  | c :: t => if matchesAt sub (c :: t) then some 0
              else (findIdx sub t).map (· + 1)

/-- Index of the last occurrence of `sub` in `s` (Python `str.rfind`,
`some`-valued). -/
def rfindIdx (sub : List Char) : List Char → Option Nat
  | [] => if matchesAt sub [] then some 0 else none
  | c :: t =>
      match rfindIdx sub t with
      | some i => some (i + 1)
      | none => if matchesAt sub (c :: t) then some 0 else none

/-- The Python `sub in s` substring test. -/
def contains_sub (s sub : List Char) : Bool :=
  (findIdx sub s).isSome

/-- Python `s.find(sub)`: first index or `-1`. -/
def py_find (s sub : String) : Int :=
  match findIdx sub.data s.data with
  | some i => (i : Int)
  | none => -1

/-- Python `s.find(sub, start)` with `0 ≤ start`: first index `≥ start`
or `-1`. -/
def py_find_from (s sub : String) (start : Int) : Int :=
  match findIdx sub.data (s.data.drop start.toNat) with
  | some i => start + (i : Int)
  | none => -1

/-- Python `s.rfind(sub)`: last index or `-1`. -/
def py_rfind (s sub : String) : Int :=
  match rfindIdx sub.data s.data with
  | some i => (i : Int)
  | none => -1

/-- Python slicing `s[a:b]` with `Int` bounds (negative indices count
from the end, out-of-range bounds are clamped). -/
def py_slice (s : List Char) (a b : Int) : List Char :=
  let n : Int := (s.length : Int)
  let a' : Int := if a < 0 then max 0 (n + a) else min a n
  let b' : Int := if b < 0 then max 0 (n + b) else min b n
  (s.take b'.toNat).drop a'.toNat

/-- Python `str.strip()` on a character list. -/
def py_strip (s : List Char) : List Char :=
  ((s.dropWhile isPySpace).reverse.dropWhile isPySpace).reverse

/-- Python `str.strip()` on a `String`. -/
def py_strip_str (s : String) : String :=
  String.mk (py_strip s.data)

/-- Python `str.lower()` (the sources only classify ASCII keywords). -/
def py_lower (s : String) : String :=
  String.mk (s.data.map Char.toLower)

/-! ### JSON values and `json.loads`

`PyVal` models the Python values that `json.loads` can produce (and the
strings/floats placed into response dictionaries by the decision
engine).  `json_loads` models the Python `json.loads` function on the JSON
fragment exercised by the pipeline: objects, arrays, strings with the
common escapes, numbers, `true`/`false`/`null`; it rejects everything
else, mirroring `json.JSONDecodeError`.  Numbers are kept exact as
rationals. -/

inductive PyVal where
  | str : String → PyVal
  | num : ℚ → PyVal
  | bool : Bool → PyVal
  | null : PyVal
  | arr : List PyVal → PyVal
  | dict : List (String × PyVal) → PyVal
deriving Repr, Inhabited

/-- JSON inter-token whitespace. -/
def isJsonWs (c : Char) : Bool :=
  c = ' ' || c = '\t' || c = '\n' || c = '\r'

/-- Drop leading JSON whitespace. -/
def skipWs (s : List Char) : List Char :=
  s.dropWhile isJsonWs

/-- Parse the body of a JSON string literal (after the opening quote),
handling the standard single-character escapes. -/
def parseStrBody : List Char → List Char → Except String (String × List Char)
  | [], _ => .error "Unterminated string"
  | '"' :: r, acc => .ok (String.mk acc.reverse, r)
  | '\\' :: e :: r, acc =>
      if e = '"' then parseStrBody r ('"' :: acc)
      else if e = '\\' then parseStrBody r ('\\' :: acc)
      else if e = '/' then parseStrBody r ('/' :: acc)
      else if e = 'n' then parseStrBody r ('\n' :: acc)
      else if e = 't' then parseStrBody r ('\t' :: acc)
      else if e = 'r' then parseStrBody r ('\r' :: acc)
      else if e = 'b' then parseStrBody r ('\x08' :: acc)
      else if e = 'f' then parseStrBody r ('\x0c' :: acc)
      else .error "Invalid escape"
  | '\\' :: [], _ => .error "Unterminated string"
  | c :: r, acc => parseStrBody r (c :: acc)
termination_by s _ => s.length

/-- Parse a run of decimal digits into its value and length. -/
def parseDigits : List Char → Option (Nat × Nat × List Char)
  | c :: r =>
      if c.isDigit then
        match parseDigits r with
        | some (v, k, rest) => some (v + (c.toNat - 48) * 10 ^ k, k + 1, rest)
        | none => some ((c.toNat - 48), 1, r)
      else none
  | [] => none

/-- Parse a JSON number (sign, integer part, optional fraction,
optional exponent). -/
def parseNum (s : List Char) : Except String (ℚ × List Char) :=
  let (neg, s1) : Bool × List Char :=
    match s with
    | '-' :: r => (true, r)
    | _ => (false, s)
  match parseDigits s1 with
  | none => .error "Expecting value"
  | some (ip, _, s2) =>
      let (frac, s3) : ℚ × List Char :=
        match s2 with
        | '.' :: r =>
            match parseDigits r with
            | some (fv, fk, rest) => (((fv : ℚ) / (10 ^ fk : ℚ)), rest)
            | none => (0, s2)
        | _ => (0, s2)
      let base : ℚ := (ip : ℚ) + frac
      let (expo, s4) : Int × List Char :=
        match s3 with
        | 'e' :: r | 'E' :: r =>
            (match r with
             | '-' :: r2 =>
                 match parseDigits r2 with
                 | some (ev, _, rest) => (-(ev : Int), rest)
                 | none => (0, s3)
             | '+' :: r2 =>
                 match parseDigits r2 with
                 | some (ev, _, rest) => ((ev : Int), rest)
                 | none => (0, s3)
             | _ =>
                 match parseDigits r with
                 | some (ev, _, rest) => ((ev : Int), rest)
                 | none => (0, s3))
        | _ => (0, s3)
      let v : ℚ := base * (10 : ℚ) ^ expo
      .ok (if neg then -v else v, s4)

mutual

/-- Parse one JSON value (fuel-indexed recursion). -/
def parseVal : Nat → List Char → Except String (PyVal × List Char)
  | 0, _ => .error "Fuel exhausted"
  | fuel + 1, s =>
      match skipWs s with
      | [] => .error "Expecting value"
      | c :: rest =>
          if c = '"' then
            match parseStrBody rest [] with
            | .ok (str, r) => .ok (.str str, r)
            | .error e => .error e
          else if c = '\x7b' then
            match skipWs rest with
            | '\x7d' :: r => .ok (.dict [], r)
            | s1 => parseMembers fuel s1 []
          else if c = '[' then
            match skipWs rest with
            | ']' :: r => .ok (.arr [], r)
            | s1 => parseElems fuel s1 []
          else if matchesAt ['t', 'r', 'u', 'e'] (c :: rest) then
            .ok (.bool true, (c :: rest).drop 4)
          else if matchesAt ['f', 'a', 'l', 's', 'e'] (c :: rest) then
            .ok (.bool false, (c :: rest).drop 5)
          else if matchesAt ['n', 'u', 'l', 'l'] (c :: rest) then
            .ok (.null, (c :: rest).drop 4)
          else
            match parseNum (c :: rest) with
            | .ok (q, r) => .ok (.num q, r)
            | .error e => .error e

/-- Parse the members of a JSON object (after `{`, first key next). -/
def parseMembers : Nat → List Char → List (String × PyVal) →
    Except String (PyVal × List Char)
  | 0, _, _ => .error "Fuel exhausted"
  | fuel + 1, s, acc =>
      match skipWs s with
      | '"' :: rest =>
          match parseStrBody rest [] with
          | .error e => .error e
          | .ok (key, r1) =>
              match skipWs r1 with
              | ':' :: r2 =>
                  match parseVal fuel r2 with
                  | .error e => .error e
                  | .ok (v, r3) =>
                      match skipWs r3 with
                      | ',' :: r4 => parseMembers fuel r4 ((key, v) :: acc)
                      | '\x7d' :: r4 => .ok (.dict (((key, v) :: acc).reverse), r4)
                      | _ => .error "Expecting comma or end of object"
              | _ => .error "Expecting colon"
      | _ => .error "Expecting property name"

/-- Parse the elements of a JSON array (after `[`, first element next). -/
def parseElems : Nat → List Char → List PyVal →
    Except String (PyVal × List Char)
  | 0, _, _ => .error "Fuel exhausted"
  | fuel + 1, s, acc =>
      match parseVal fuel s with
      | .error e => .error e
      | .ok (v, r1) =>
          match skipWs r1 with
          | ',' :: r2 => parseElems fuel r2 (v :: acc)
          | ']' :: r2 => .ok (.arr ((v :: acc).reverse), r2)
          | _ => .error "Expecting comma or end of array"

end

/-- Model of the Python `json.loads` function (on the JSON fragment described
above): parse one value and insist the remainder is whitespace. -/
def json_loads (s : String) : Except String PyVal :=
  match parseVal (2 * s.data.length + 4) s.data with
  | .error e => .error e
  | .ok (v, rest) =>
      if (skipWs rest).isEmpty then .ok v else .error "Extra data"

/-- Lookup in a parsed JSON object.  The Python `json.loads` function keeps the
last binding of a duplicated key, and `dict.get` then returns it. -/
def dict_get (fields : List (String × PyVal)) (k : String) : Option PyVal :=
  (fields.filter (fun p => p.1 = k)).getLast?.map (·.2)

/-- Python `d.get(k, default)` on a parsed JSON object. -/
def py_get (fields : List (String × PyVal)) (k : String) (dflt : PyVal) : PyVal :=
  (dict_get fields k).getD dflt

/-! ### Data model

`Clause` is the dictionary built by `DocumentProcessor._extract_clauses`
(`document_processor.py:119-124`), `RankedClause` the clause copy
augmented by `SemanticSearch._find_similar_clauses`
(`semantic_search.py:82-84`), `Decision` the dictionary returned by
`DecisionEngine.evaluate_decision`, and `AnswerEntry` the per-question
entry appended by `run_query` in `main.py`.  Because the language model
may report arbitrary JSON values for `answer`/`rationale`/`confidence`,
those fields carry `PyVal`. -/

structure Clause where
  id : String
  content : String
  length : Nat
  type : String
deriving Repr, DecidableEq

structure RankedClause extends Clause where
  similarity_score : ℚ
  rank : Nat
deriving Repr, DecidableEq

structure Decision where
  answer : PyVal
  rationale : PyVal
  relevant_clauses : List RankedClause
  confidence : PyVal
deriving Repr

structure AnswerEntry where
  question : String
  answer : PyVal
  rationale : PyVal
  relevant_clauses : List RankedClause
  confidence : PyVal
deriving Repr

/-! ### Clause segmenter (`document_processor.py`) -/

/-- Index of the last newline character in a list, if any. -/
def lastNL : List Char → Option Nat
  | [] => none
  | c :: t =>
      match lastNL t with
      | some i => some (i + 1)
      | none => if c = '\n' then some 0 else none

/-- Splitting on the regex `\n\s*\n` as `re.split` does
(`document_processor.py:115`): the leftmost match starts at a newline
whose following whitespace run contains another newline; the greedy
`\s*` makes the match end at the last newline of that run. -/
def split_blank : List Char → List Char → List (List Char)
  | [], acc => [acc.reverse]
  | c :: rest, acc =>
      if c = '\n' then
        match lastNL (rest.takeWhile isPySpace) with
        | some q => acc.reverse :: split_blank (rest.drop (q + 1)) []
        | none => split_blank rest (c :: acc)
      else split_blank rest (c :: acc)
termination_by s _ => s.length
decreasing_by
  all_goals simp [List.length_drop]
  all_goals omega

/-- `re.split` of the text on the regex `\n\s*\n`. -/
def split_sections (s : List Char) : List (List Char) :=
  split_blank s []

/-- `DocumentProcessor._classify_clause_type`
(`document_processor.py:128-140`): first keyword family that matches
the lowercased text wins. -/
def classify_clause_type (text : String) : String :=
  let text_lower := py_lower text
  if ["coverage", "cover", "policy"].any (fun w => contains_sub text_lower.data w.data) then
    "coverage"
  else if ["exclusion", "exclude", "not covered"].any (fun w => contains_sub text_lower.data w.data) then
    "exclusion"
  else if ["condition", "requirement", "must"].any (fun w => contains_sub text_lower.data w.data) then
    "condition"
  else if ["limit", "maximum", "cap"].any (fun w => contains_sub text_lower.data w.data) then
    "limit"
  else
    "general"

/-- `DocumentProcessor._extract_clauses`
(`document_processor.py:112-126`): split on blank lines, keep sections
whose stripped length exceeds 50, and build the clause dictionary.
Note the id uses the index `i` of `enumerate(sections)`, which counts
every section, discarded ones included. -/
def extract_clauses (text : String) : List Clause :=
  (split_sections text.data).enum.filterMap (fun p =>
    let t := py_strip p.2
    if 50 < t.length then
      some { id := "clause_" ++ toString p.1
             content := String.mk t
             length := t.length
             type := classify_clause_type (String.mk p.2) }
    else none)

/-! ### Decision synthesizer (`decision_engine.py`) -/

/-- `DecisionEngine._build_context` (`decision_engine.py:47-52`). -/
def build_context (clauses : List RankedClause) : String :=
  String.intercalate "\n\n" ((clauses.take 5).enum.map (fun p =>
    "Clause " ++ toString (p.1 + 1) ++ " (Type: " ++ p.2.type ++ "): " ++ p.2.content))

/-- `DecisionEngine._build_prompt` (`decision_engine.py:54-78`). -/
def build_prompt (question context : String) : String :=
  "You are an expert insurance and legal document analyzer. Based on the provided document clauses, answer the question with a structured response.\n\nDocument Clauses:\n"
  ++ context
  ++ "\n\nQuestion: " ++ question
  ++ "\n\nPlease provide a JSON response with the following structure:\n\x7b\n    \"answer\": \"Direct answer to the question based on the clauses\",\n    \"rationale\": \"Detailed explanation of how the clauses support the answer\",\n    \"confidence\": 0.0-1.0\n\x7d\n\nFocus on specific details like:\n- Grace periods\n- Waiting periods  \n- Coverage limits\n- Exclusions\n- Conditions\n- Specific medical procedures mentioned\n- Policy terms and definitions\n\nIf the clauses don\x27t contain relevant information, state that clearly in the answer."

/-- `DecisionEngine._get_gpt_response` (`decision_engine.py:80-94`): the
completion capability is injected as `complete`; any provider failure
is re-raised with the `GPT-4 evaluation failed: ` message. -/
def get_gpt_response (complete : String → Except String String)
    (prompt : String) : Except String String :=
  match complete prompt with
  | .ok r => .ok r
  | .error e => .error ("GPT-4 evaluation failed: " ++ e)

/-- `DecisionEngine._parse_response` (`decision_engine.py:96-127`): the
tolerant extraction ladder.  The generic `except Exception` arm
(`Response processing error`) is unreachable in this model because
slicing and `json.loads` are the only operations in the guarded block
and `json.loads` failures are the `JSONDecodeError` arm. -/
def parse_response (response : String) : PyVal :=
  if contains_sub response.data "```json".data then
    let json_start : Int := py_find response "```json" + 7
    let json_end : Int := py_find_from response "```" json_start
    let json_str : String := py_strip_str (String.mk (py_slice response.data json_start json_end))
    match json_loads json_str with
    | .ok v => v
    | .error _ =>
        .dict [("answer", .str response),
               ("rationale", .str "Response parsing failed"),
               ("confidence", .num (3/10))]
  else if contains_sub response.data "\x7b".data && contains_sub response.data "\x7d".data then
    let json_start : Int := py_find response "\x7b"
    let json_end : Int := py_rfind response "\x7d" + 1
    let json_str : String := String.mk (py_slice response.data json_start json_end)
    match json_loads json_str with
    | .ok v => v
    | .error _ =>
        .dict [("answer", .str response),
               ("rationale", .str "Response parsing failed"),
               ("confidence", .num (3/10))]
  else
    .dict [("answer", .str response),
           ("rationale", .str "Response could not be parsed as JSON"),
           ("confidence", .num (1/2))]

/-- The message of the Python `AttributeError` raised when `.get` is
called on a non-dict value parsed by `_parse_response` (the exact text
names the offending type; it is abstracted here since nothing in the
code inspects it). -/
def attr_err : String := "object has no attribute get"

/-- `DecisionEngine.evaluate_decision` (`decision_engine.py:15-45`).
The `try/except` is modelled by the explicit branches: an empty clause
list short-circuits; a completion failure lands in the handler; a
parsed non-dict value makes `parsed_response.get` raise
`AttributeError`, which the same handler converts. -/
def evaluate_decision (complete : String → Except String String)
    (question : String) (relevant_clauses : List RankedClause) : Decision :=
  if relevant_clauses.isEmpty then
    { answer := .str "No relevant information found in the document."
      rationale := .str "The document does not contain information relevant to the question."
      relevant_clauses := []
      confidence := .num 0 }
  else
    let context := build_context relevant_clauses
    let prompt := build_prompt question context
    match get_gpt_response complete prompt with
    | .error e =>
        { answer := .str "Error processing the question."
          rationale := .str ("Technical error: " ++ e)
          relevant_clauses := relevant_clauses.take 3
          confidence := .num 0 }
    | .ok response =>
        match parse_response response with
        | .dict fields =>
            { answer := py_get fields "answer" (.str "Unable to determine answer.")
              rationale := py_get fields "rationale" (.str "Insufficient information to provide rationale.")
              relevant_clauses := relevant_clauses.take 3
              confidence := py_get fields "confidence" (.num (1/2)) }
        | _ =>
            { answer := .str "Error processing the question."
              rationale := .str ("Technical error: " ++ attr_err)
              relevant_clauses := relevant_clauses.take 3
              confidence := .num 0 }

/-! ### Similarity ranker (`semantic_search.py`) -/

/-- Inner product of two vectors (`faiss.IndexFlatIP` scoring; on the
L2-normalized provider embeddings this is the cosine similarity). -/
def dot (v w : List ℚ) : ℚ :=
  (List.zipWith (fun a b => a * b) v w).sum

/-- A scored candidate: original clause position, the clause, and its
inner-product similarity with the question vector. -/
structure Cand where
  idx : Nat
  clause : Clause
  score : ℚ
deriving Repr, DecidableEq

/-- Insert into a score-descending list, before the first entry whose
score does not exceed the inserted one (stable descending insertion). -/
def ins_desc (x : Cand) : List Cand → List Cand
  | [] => [x]
  | y :: ys => if y.score ≤ x.score then x :: y :: ys else y :: ins_desc x ys

/-- Stable sort by strictly descending score, ties kept in input
order. -/
def sort_desc : List Cand → List Cand
  | [] => []
  | x :: xs => ins_desc x (sort_desc xs)

/-- All candidates with their original positions and scores
(`clauses` zipped with `clause_embeddings`). -/
def candidates (q : List ℚ) (ce : List (List ℚ)) (cs : List Clause) : List Cand :=
  ((cs.zip ce).enum).map (fun p => ⟨p.1, p.2.1, dot q p.2.2⟩)

/-- The candidates surviving the top-`min(5, len(clauses))` cut and the
`similarity > 0.3` filter, in result order. -/
def selected_cands (q : List ℚ) (ce : List (List ℚ)) (cs : List Clause) : List Cand :=
  ((sort_desc (candidates q ce cs)).take (min 5 cs.length)).filter
    (fun c => (3 : ℚ)/10 < c.score)

/-- Stable descending insertion on ranked clauses, keyed by
`similarity_score` (Python `sorted(..., reverse=True)` is stable). -/
def ins_desc_rc (x : RankedClause) : List RankedClause → List RankedClause
  | [] => [x]
  | y :: ys =>
      if y.similarity_score ≤ x.similarity_score then x :: y :: ys
      else y :: ins_desc_rc x ys

/-- `sorted(relevant_clauses, key=lambda x: x["similarity_score"],
reverse=True)` (`semantic_search.py:87`). -/
def sort_desc_rc : List RankedClause → List RankedClause
  | [] => []
  | x :: xs => ins_desc_rc x (sort_desc_rc xs)

/-- Modelled from the spec: `SemanticSearch._find_similar_clauses`
(`semantic_search.py:59-91`) as it was written to behave.  The external
`faiss` library (referenced but never imported by the module) is
modelled from its documented semantics: `IndexFlatIP.search(q, k)`
returns the `k` highest inner-product candidates sorted by descending
score, equal scores in ascending index order.  The loop then keeps
candidates with `similarity > 0.3`, tags them with `rank = i + 1` from
the enumeration position over the search results, and the final
`sorted(..., reverse=True)` re-sorts stably by descending score. -/
def find_similar_clauses (question_embedding : List ℚ)
    (clause_embeddings : List (List ℚ)) (clauses : List Clause) : List RankedClause :=
  let topk := (sort_desc (candidates question_embedding clause_embeddings clauses)).take
    (min 5 clauses.length)
  let relevant := topk.enum.filterMap (fun p =>
    if (3 : ℚ)/10 < p.2.score then some ⟨p.2.clause, p.2.score, p.1 + 1⟩ else none)
  sort_desc_rc relevant

/-- The ranker as it actually executes: `semantic_search.py` uses
`faiss.IndexFlatIP` at line 73 but the module never imports `faiss`
(only `numpy`, `openai` and an unused sklearn `cosine_similarity`), so
every call with nonempty `clause_embeddings` raises `NameError`, which
the `except Exception` handler at line 89 converts to `[]`; the empty
case returns `[]` at line 67.  The function therefore constantly
returns the empty list. -/
def find_similar_clauses_run (_question_embedding : List ℚ)
    (_clause_embeddings : List (List ℚ)) (_clauses : List Clause) : List RankedClause :=
  []

/-- `SemanticSearch._get_embedding` (`semantic_search.py:41-50`) with
the embedding capability injected as `embed`; provider failures are
re-raised with the `Embedding generation failed: ` message. -/
def get_embedding (embed : String → Except String (List ℚ))
    (text : String) : Except String (List ℚ) :=
  match embed text with
  | .ok v => .ok v
  | .error e => .error ("Embedding generation failed: " ++ e)

/-- `SemanticSearch._get_clause_embeddings` (`semantic_search.py:52-57`):
sequential embedding of each clause content; the first failure
propagates. -/
def get_clause_embeddings (embed : String → Except String (List ℚ)) :
    List Clause → Except String (List (List ℚ))
  | [] => .ok []
  | c :: cs =>
      match get_embedding embed c.content with
      | .error e => .error e
      | .ok v =>
          match get_clause_embeddings embed cs with
          | .error e => .error e
          | .ok vs => .ok (v :: vs)

/-- `SemanticSearch.search_clauses` (`semantic_search.py:20-39`): empty
clause list short-circuits to `[]`; any exception from the embedding
calls (or the ranker) is caught and `[]` returned.  The ranking step
uses the spec-modelled `find_similar_clauses`. -/
def search_clauses (embed : String → Except String (List ℚ))
    (question : String) (clauses : List Clause) : List RankedClause :=
  if clauses.isEmpty then []
  else
    match get_embedding embed question with
    | .error _ => []
    | .ok qe =>
        match get_clause_embeddings embed clauses with
        | .error _ => []
        | .ok ces => find_similar_clauses qe ces clauses

/-! ### Request handler loop (`main.py`) -/

/-- The per-question loop of `run_query` (`main.py:64-75`): each
question is searched and synthesized in order and contributes exactly
one answer entry. -/
def run_query_answers (embed : String → Except String (List ℚ))
    (complete : String → Except String String)
    (questions : List String) (doc_clauses : List Clause) : List AnswerEntry :=
  questions.map (fun question =>
    let relevant := search_clauses embed question doc_clauses
    let d := evaluate_decision complete question relevant
    { question := question
      answer := d.answer
      rationale := d.rationale
      relevant_clauses := d.relevant_clauses
      confidence := d.confidence })

/-! ### Concrete instances used by the claim theorems and witnesses -/

/-- A concrete clause used to exhibit the missing `faiss` import. -/
def c2_clause : Clause :=
  { id := "clause_0"
    content := "Section A provides coverage for knee surgery in all plans."
    length := 58
    type := "coverage" }

/-- The confidence of a `Decision` is a rational in the unit
interval. -/
def conf_in_unit (d : Decision) : Prop :=
  ∃ qq : ℚ, d.confidence = .num qq ∧ 0 ≤ qq ∧ qq ≤ 1

/-- A completion capability whose model output reports the
out-of-range confidence 2. -/
def bad_complete : String → Except String String :=
  fun _ => .ok "\x7b\"confidence\": 2\x7d"

/-- A ranked clause used by the C9 counterexample. -/
def rc_ex : RankedClause :=
  { id := "clause_0", content := "The policy covers X.", length := 20,
    type := "coverage", similarity_score := 1, rank := 1 }

/-- The text whose first blank-line section is short. -/
def c4_text : String :=
  "hi\n\nSection A provides coverage for knee surgery in all plans today."

/-- A concrete embedding capability failing on one question. -/
def c6_embed : String → Except String (List ℚ) :=
  fun t => if t = "bad question" then .error "quota exhausted" else .ok [1]

/-- A concrete clause list for the C6 witness. -/
def c6_clause : Clause :=
  { id := "clause_0", content := "Section A provides coverage.", length := 28,
    type := "coverage" }

/-- The backquote character. -/
def backquote : Char := Char.ofNat 96

/-- The completion capability used by the C5 witness: a JSON object
with none of the three expected fields. -/
def c5_complete : String → Except String String :=
  fun _ => .ok "\x7b\"other\": true\x7d"

/-- A ranked clause used by the C5 witness. -/
def c5_rc : RankedClause :=
  { id := "clause_0", content := "The policy covers Y.", length := 20,
    type := "coverage", similarity_score := 1, rank := 1 }

/-- The result order of the ranker: strictly higher score first, ties
in ascending original clause position. -/
def cand_before (x y : Cand) : Prop :=
  y.score < x.score ∨ (x.score = y.score ∧ x.idx < y.idx)

/-- First clause for the C3 witness. -/
def c3_clause_a : Clause :=
  { id := "clause_0", content := "Section A provides coverage.", length := 28,
    type := "coverage" }

/-- Second clause for the C3 witness. -/
def c3_clause_b : Clause :=
  { id := "clause_1", content := "Section B excludes maternity.", length := 29,
    type := "exclusion" }

/-! ### Helper lemmas -/

lemma matchesAt_iff (sub s : List Char) : matchesAt sub s = true ↔ sub <+: s := by
  induction sub generalizing s with
  | nil => simp [matchesAt, List.nil_prefix]
  | cons c p ih =>
    cases s with
    | nil => simp [matchesAt]
    | cons d t =>
      simp [matchesAt, List.cons_prefix_cons, ih]

lemma findIdx_isSome_iff (sub s : List Char) :
    (findIdx sub s).isSome = true ↔ sub <:+: s := by
  induction s with
  | nil =>
    cases sub with
    | nil => simp [findIdx, matchesAt]
    | cons c p => simp [findIdx, matchesAt]
  | cons c t ih =>
    by_cases h : matchesAt sub (c :: t) = true
    · simp [findIdx, h, ((matchesAt_iff _ _).mp h).isInfix]
    · simp only [findIdx, h, Bool.false_eq_true, if_false, Option.isSome_map']
      rw [ih, List.infix_cons_iff]
      constructor
      · exact Or.inr
      · rintro (hp | hi)
        · exact absurd ((matchesAt_iff _ _).mpr hp) h
        · exact hi

/-! ### Claim theorems -/

/-- C1: `evaluate_decision` is total.  On the empty clause list it
returns the fixed no-information `Decision` without consulting the
completion capability (the result is the same for every capability),
and when the completion call fails with message `e` it returns the
fixed error `Decision` carrying `Technical error: <message>` (the
message of the re-raised completion exception), the first 3 ranked
clauses and confidence 0. -/
theorem c1_synthesize_total :
    (∀ (complete complete' : String → Except String String) (q : String),
       evaluate_decision complete q [] = evaluate_decision complete' q [] ∧
       evaluate_decision complete q [] =
         { answer := .str "No relevant information found in the document."
           rationale := .str "The document does not contain information relevant to the question."
           relevant_clauses := []
           confidence := .num 0 }) ∧
    (∀ (complete : String → Except String String) (q : String)
       (rcs : List RankedClause) (e : String),
       rcs ≠ [] →
       complete (build_prompt q (build_context rcs)) = .error e →
       evaluate_decision complete q rcs =
         { answer := .str "Error processing the question."
           rationale := .str ("Technical error: " ++ ("GPT-4 evaluation failed: " ++ e))
           relevant_clauses := rcs.take 3
           confidence := .num 0 }) := by
  constructor
  · intro complete complete' q
    exact ⟨rfl, rfl⟩
  · intro complete q rcs e hne hc
    cases rcs with
    | nil => exact absurd rfl hne
    | cons r rs =>
      have h1 : get_gpt_response complete (build_prompt q (build_context (r :: rs))) =
          .error ("GPT-4 evaluation failed: " ++ e) := by
        simp [get_gpt_response, hc]
      simp [evaluate_decision, h1]

/-- Witness for C1 at a concrete failing completion capability. -/
theorem c1_synthesize_total_witness :
    evaluate_decision (fun _ => .error "boom") "q"
      [{ id := "clause_0", content := "c", length := 1, type := "general",
         similarity_score := 1, rank := 1 }] =
      { answer := .str "Error processing the question."
        rationale := .str ("Technical error: " ++ ("GPT-4 evaluation failed: " ++ "boom"))
        relevant_clauses := [{ id := "clause_0", content := "c", length := 1, type := "general",
                               similarity_score := 1, rank := 1 }]
        confidence := .num 0 } := by
  exact c1_synthesize_total.2 (fun _ => .error "boom") "q" _ "boom" (by simp) rfl

/-- C7: on every outcome of `evaluate_decision` the returned
`relevant_clauses` is exactly the first `min(3, len)` elements of the
input ranked clauses (i.e. `take 3`), so its length never exceeds 3. -/
theorem c7_supporting_clauses_take3 (complete : String → Except String String)
    (q : String) (rcs : List RankedClause) :
    (evaluate_decision complete q rcs).relevant_clauses = rcs.take 3 ∧
    (evaluate_decision complete q rcs).relevant_clauses.length ≤ 3 := by
  have h : (evaluate_decision complete q rcs).relevant_clauses = rcs.take 3 := by
    cases rcs with
    | nil => rfl
    | cons r rs =>
      cases hg : get_gpt_response complete (build_prompt q (build_context (r :: rs))) with
      | error e => simp [evaluate_decision, hg]
      | ok response =>
        cases hp : parse_response response <;> simp [evaluate_decision, hg, hp]
  refine ⟨h, ?_⟩
  rw [h]
  exact List.length_take_le 3 rcs

/-- C8: `_classify_clause_type` follows the fixed priority order
coverage > exclusion > condition > limit > general, with
case-insensitive substring tests and first match winning; in
particular a section containing both an exclusion keyword and a
coverage keyword is classified `coverage`. -/
theorem c8_classify_priority :
    (∀ t : String,
       ["coverage", "cover", "policy"].any
         (fun w => contains_sub (py_lower t).data w.data) = true →
       classify_clause_type t = "coverage") ∧
    (∀ t : String,
       ["coverage", "cover", "policy"].any
         (fun w => contains_sub (py_lower t).data w.data) = false →
       ["exclusion", "exclude", "not covered"].any
         (fun w => contains_sub (py_lower t).data w.data) = true →
       classify_clause_type t = "exclusion") ∧
    (∀ t : String,
       ["coverage", "cover", "policy"].any
         (fun w => contains_sub (py_lower t).data w.data) = false →
       ["exclusion", "exclude", "not covered"].any
         (fun w => contains_sub (py_lower t).data w.data) = false →
       ["condition", "requirement", "must"].any
         (fun w => contains_sub (py_lower t).data w.data) = true →
       classify_clause_type t = "condition") ∧
    (∀ t : String,
       ["coverage", "cover", "policy"].any
         (fun w => contains_sub (py_lower t).data w.data) = false →
       ["exclusion", "exclude", "not covered"].any
         (fun w => contains_sub (py_lower t).data w.data) = false →
       ["condition", "requirement", "must"].any
         (fun w => contains_sub (py_lower t).data w.data) = false →
       ["limit", "maximum", "cap"].any
         (fun w => contains_sub (py_lower t).data w.data) = true →
       classify_clause_type t = "limit") ∧
    (∀ t : String,
       ["coverage", "cover", "policy"].any
         (fun w => contains_sub (py_lower t).data w.data) = false →
       ["exclusion", "exclude", "not covered"].any
         (fun w => contains_sub (py_lower t).data w.data) = false →
       ["condition", "requirement", "must"].any
         (fun w => contains_sub (py_lower t).data w.data) = false →
       ["limit", "maximum", "cap"].any
         (fun w => contains_sub (py_lower t).data w.data) = false →
       classify_clause_type t = "general") ∧
    (∀ t : String,
       contains_sub (py_lower t).data "exclusion".data = true →
       contains_sub (py_lower t).data "coverage".data = true →
       classify_clause_type t = "coverage") := by
  refine ⟨?_, ?_, ?_, ?_, ?_, ?_⟩
  · intro t h1
    simp [classify_clause_type, h1]
  · intro t h1 h2
    simp [classify_clause_type, h1, h2]
  · intro t h1 h2 h3
    simp [classify_clause_type, h1, h2, h3]
  · intro t h1 h2 h3 h4
    simp [classify_clause_type, h1, h2, h3, h4]
  · intro t h1 h2 h3 h4
    simp [classify_clause_type, h1, h2, h3, h4]
  · intro t he hc
    have h1 : ["coverage", "cover", "policy"].any
        (fun w => contains_sub (py_lower t).data w.data) = true := by
      simp [List.any_cons, hc]
    simp [classify_clause_type, h1]

/-- Witness for C8 at concrete sections, including one containing both
an exclusion and a coverage keyword. -/
theorem c8_classify_priority_witness :
    classify_clause_type "Exclusion: knee surgery is not part of the Coverage" = "coverage" ∧
    classify_clause_type "EXCLUSIONS are listed below" = "exclusion" ∧
    classify_clause_type "this requirement applies" = "condition" ∧
    classify_clause_type "the maximum amount" = "limit" ∧
    classify_clause_type "nothing special here" = "general" :=
  ⟨c8_classify_priority.2.2.2.2.2 _ (by decide) (by decide),
   c8_classify_priority.2.1 _ (by decide) (by decide),
   c8_classify_priority.2.2.1 _ (by decide) (by decide) (by decide),
   c8_classify_priority.2.2.2.1 _ (by decide) (by decide) (by decide) (by decide),
   c8_classify_priority.2.2.2.2.1 _ (by decide) (by decide) (by decide) (by decide)⟩

/-- C10: any section whose lowercased text contains `"not covered"`
also contains the higher-priority keyword `"cover"` (as a substring of
`"not covered"`), so `_classify_clause_type` returns `coverage`, never
`exclusion`. -/
theorem c10_not_covered_classifies_coverage :
    ∀ t : String, contains_sub (py_lower t).data "not covered".data = true →
      classify_clause_type t = "coverage" := by
  intro t h
  have hnc : "not covered".data <:+: (py_lower t).data := (findIdx_isSome_iff _ _).mp h
  have hsub : "cover".data <:+: "not covered".data := ⟨"not ".data, "ed".data, by decide⟩
  have hc : contains_sub (py_lower t).data "cover".data = true :=
    (findIdx_isSome_iff _ _).mpr (hsub.trans hnc)
  have h1 : ["coverage", "cover", "policy"].any
      (fun w => contains_sub (py_lower t).data w.data) = true := by
    simp [List.any_cons, hc]
  simp [classify_clause_type, h1]

/-- Witness for C10 at a concrete section containing `"not covered"`. -/
theorem c10_not_covered_witness :
    classify_clause_type "Maternity is NOT COVERED during the first year" = "coverage" :=
  c10_not_covered_classifies_coverage _ (by decide)

/-- C2: the ranker as the repository actually runs it returns `[]` even
for a clause whose inner-product similarity with the question vector is
1 (far above the 0.3 threshold), because `semantic_search.py` never
imports `faiss` and the resulting `NameError` is swallowed by the
`except` handler; the spec-modelled ranker returns that clause with
rank 1 as §4.3 describes. -/
theorem c2_faiss_never_imported :
    find_similar_clauses_run [1] [[1]] [c2_clause] = [] ∧
    find_similar_clauses [1] [[1]] [c2_clause] =
      [{ toClause := c2_clause, similarity_score := 1, rank := 1 }] := by
  exact ⟨rfl, by with_unfolding_all decide⟩

/-- C9 counterexample: when the model JSON reports `"confidence": 2`,
`evaluate_decision` passes the value through unclamped, so the produced
confidence is not in `[0, 1]`. -/
theorem c9_confidence_counterexample :
    (evaluate_decision bad_complete "q" [rc_ex]).confidence = PyVal.num 2 ∧
    ¬ conf_in_unit (evaluate_decision bad_complete "q" [rc_ex]) := by
  have h : (evaluate_decision bad_complete "q" [rc_ex]).confidence = PyVal.num 2 := by
    with_unfolding_all rfl
  refine ⟨h, ?_⟩
  rintro ⟨qq, hq, h0, h1⟩
  rw [h, PyVal.num.injEq] at hq
  rw [← hq] at h1
  norm_num at h1

/-- C9 amended: the confidence of every `Decision` produced by
`evaluate_decision` is a rational in `[0, 1]` on every path where the
parsed model JSON does not supply a `confidence` field (the fixed
constants 0, 0.3, 0.5); when the parsed dictionary does supply one, the
value is passed through unchanged (unclamped and possibly
non-numeric). -/
theorem c9_confidence_unit_or_passthrough
    (complete : String → Except String String) (q : String)
    (rcs : List RankedClause) :
    conf_in_unit (evaluate_decision complete q rcs) ∨
    (∃ raw fields v,
       get_gpt_response complete (build_prompt q (build_context rcs)) = .ok raw ∧
       parse_response raw = .dict fields ∧
       dict_get fields "confidence" = some v ∧
       (evaluate_decision complete q rcs).confidence = v) := by
  cases rcs with
  | nil =>
    left
    exact ⟨0, rfl, le_refl 0, by norm_num⟩
  | cons r rs =>
    cases hg : get_gpt_response complete (build_prompt q (build_context (r :: rs))) with
    | error e =>
      left
      refine ⟨0, ?_, le_refl 0, by norm_num⟩
      simp [evaluate_decision, hg]
    | ok response =>
      cases hp : parse_response response with
      | dict fields =>
        cases hv : dict_get fields "confidence" with
        | none =>
          left
          refine ⟨1/2, ?_, by norm_num, by norm_num⟩
          simp [evaluate_decision, hg, hp, py_get, hv]
        | some v =>
          right
          refine ⟨response, fields, v, rfl, hp, hv, ?_⟩
          simp [evaluate_decision, hg, hp, py_get, hv]
      | str s =>
        left
        refine ⟨0, ?_, le_refl 0, by norm_num⟩
        simp [evaluate_decision, hg, hp]
      | num n =>
        left
        refine ⟨0, ?_, le_refl 0, by norm_num⟩
        simp [evaluate_decision, hg, hp]
      | bool b =>
        left
        refine ⟨0, ?_, le_refl 0, by norm_num⟩
        simp [evaluate_decision, hg, hp]
      | null =>
        left
        refine ⟨0, ?_, le_refl 0, by norm_num⟩
        simp [evaluate_decision, hg, hp]
      | arr xs =>
        left
        refine ⟨0, ?_, le_refl 0, by norm_num⟩
        simp [evaluate_decision, hg, hp]

lemma filterMap_eq_filter_map {α β : Type _} (f : α → Option β) (p : α → Prop)
    [DecidablePred p] (g : α → β)
    (h : ∀ a, f a = if p a then some (g a) else none) :
    ∀ l : List α, l.filterMap f = (l.filter (fun a => decide (p a))).map g := by
  intro l
  induction l with
  | nil => rfl
  | cons x xs ih =>
    by_cases hp : p x
    · simp [List.filterMap_cons, List.filter_cons, h x, hp, ih]
    · simp [List.filterMap_cons, List.filter_cons, h x, hp, ih]

/-- C4 counterexample: for a text whose first section is discarded by
the noise filter, the single retained clause carries id `clause_1`, not
`clause_0`: ids are indexed by the position among all split sections,
not among the retained ones. -/
theorem c4_id_counterexample :
    (extract_clauses c4_text).map Clause.id = ["clause_1"] ∧
    (extract_clauses c4_text).length = 1 ∧
    "clause_1" ≠ "clause_0" := by
  refine ⟨by with_unfolding_all decide, by with_unfolding_all decide, by decide⟩

/-- C4 amended: `_extract_clauses` splits on blank-line boundaries,
discards every section whose trimmed length is `≤ 50` (no such section
appears in the output), and gives the retained sections the ids
`clause_{i}` where `i` is the index of the section among ALL split sections
(discarded ones included), in document order. -/
theorem c4_segment_filter_ids (text : String) :
    extract_clauses text =
      ((split_sections text.data).enum.filter
        (fun a => decide (50 < (py_strip a.2).length))).map
        (fun a => { id := "clause_" ++ toString a.1
                    content := String.mk (py_strip a.2)
                    length := (py_strip a.2).length
                    type := classify_clause_type (String.mk a.2) }) ∧
    (extract_clauses text).all (fun c => decide (50 < c.length)) = true := by
  have he : extract_clauses text =
      ((split_sections text.data).enum.filter
        (fun a => decide (50 < (py_strip a.2).length))).map
        (fun a => { id := "clause_" ++ toString a.1
                    content := String.mk (py_strip a.2)
                    length := (py_strip a.2).length
                    type := classify_clause_type (String.mk a.2) }) :=
    filterMap_eq_filter_map _ _ _ (fun a => rfl) _
  refine ⟨he, ?_⟩
  rw [he, List.all_eq_true]
  intro c hc
  rcases List.mem_map.mp hc with ⟨a, haf, rfl⟩
  have h2 := (List.mem_filter.mp haf).2
  simpa using h2

/-- C6: an embedding-provider failure is isolated to the affected
question: `search_clauses` returns `[]` instead of propagating, every
question in the batch still yields exactly one answer entry in order,
and the entry of the affected question carries confidence 0 and the
explanatory no-information rationale. -/
theorem c6_embed_failure_isolated
    (embed : String → Except String (List ℚ)) (complete : String → Except String String)
    (qs : List String) (dcs : List Clause) :
    (run_query_answers embed complete qs dcs).map AnswerEntry.question = qs ∧
    (∀ q e, embed q = .error e → search_clauses embed q dcs = []) ∧
    (∀ q e, embed q = .error e → q ∈ qs →
       ({ question := q
          answer := .str "No relevant information found in the document."
          rationale := .str "The document does not contain information relevant to the question."
          relevant_clauses := []
          confidence := .num 0 } : AnswerEntry) ∈ run_query_answers embed complete qs dcs) := by
  have hsearch : ∀ q e, embed q = .error e → search_clauses embed q dcs = [] := by
    intro q e he
    cases dcs with
    | nil => rfl
    | cons d ds => simp [search_clauses, get_embedding, he]
  refine ⟨?_, hsearch, ?_⟩
  · unfold run_query_answers
    rw [List.map_map]
    exact List.map_id qs
  · intro q e he hq
    have h1 : search_clauses embed q dcs = [] := hsearch q e he
    unfold run_query_answers
    refine List.mem_map.mpr ⟨q, hq, ?_⟩
    simp only []
    rw [h1]
    with_unfolding_all rfl

/-- Witness for C6 at a concrete two-question batch whose second
question has a failing embedding call. -/
theorem c6_embed_failure_isolated_witness :
    (run_query_answers c6_embed (fun _ => .ok "x")
        ["good question", "bad question"] [c6_clause]).map AnswerEntry.question =
      ["good question", "bad question"] ∧
    search_clauses c6_embed "bad question" [c6_clause] = [] ∧
    ({ question := "bad question"
       answer := .str "No relevant information found in the document."
       rationale := .str "The document does not contain information relevant to the question."
       relevant_clauses := []
       confidence := .num 0 } : AnswerEntry) ∈
      run_query_answers c6_embed (fun _ => .ok "x")
        ["good question", "bad question"] [c6_clause] :=
  ⟨(c6_embed_failure_isolated c6_embed (fun _ => .ok "x")
      ["good question", "bad question"] [c6_clause]).1,
   (c6_embed_failure_isolated c6_embed (fun _ => .ok "x")
      ["good question", "bad question"] [c6_clause]).2.1 "bad question" "quota exhausted"
      (by with_unfolding_all rfl),
   (c6_embed_failure_isolated c6_embed (fun _ => .ok "x")
      ["good question", "bad question"] [c6_clause]).2.2 "bad question" "quota exhausted"
      (by with_unfolding_all rfl) (by simp)⟩

/-! ### String lemmas for the tolerant parser -/

lemma matchesAt_append_self (sub r : List Char) : matchesAt sub (sub ++ r) = true := by
  induction sub with
  | nil => rfl
  | cons c p ih => simp [matchesAt, ih]

lemma findIdx_of_matches (sub s : List Char) (h : matchesAt sub s = true) :
    findIdx sub s = some 0 := by
  cases s with
  | nil => simp [findIdx, h]
  | cons c t => simp [findIdx, h]

lemma findIdx_append_head (sub pre s : List Char) (c : Char)
    (hsub : sub.head? = some c) (hpre : ∀ d ∈ pre, d ≠ c) :
    findIdx sub (pre ++ s) = (findIdx sub s).map (· + pre.length) := by
  induction pre with
  | nil =>
    simp only [List.nil_append, List.length_nil]
    cases findIdx sub s <;> simp
  | cons d pre' ih =>
    have hd : c ≠ d := fun h => (hpre d (List.mem_cons_self _ _)) h.symm
    have hm : matchesAt sub (d :: (pre' ++ s)) = false := by
      cases sub with
      | nil => simp at hsub
      | cons c0 tail =>
        have hc0 : c0 = c := by simpa using hsub
        subst hc0
        simp [matchesAt, hd]
    have hstep : findIdx sub ((d :: pre') ++ s) = (findIdx sub (pre' ++ s)).map (· + 1) := by
      simp only [List.cons_append, findIdx, List.append_eq, hm, Bool.false_eq_true, if_false]
    rw [hstep, ih (fun x hx => hpre x (List.mem_cons_of_mem _ hx))]
    cases findIdx sub s <;> simp [List.length_cons, Nat.add_assoc]

lemma rfindIdx_none (c : Char) (s : List Char) (h : ∀ d ∈ s, d ≠ c) :
    rfindIdx [c] s = none := by
  induction s with
  | nil => simp [rfindIdx, matchesAt]
  | cons d t ih =>
    have hd : c ≠ d := fun hcd => (h d (List.mem_cons_self _ _)) hcd.symm
    have ht : rfindIdx [c] t = none := ih (fun x hx => h x (List.mem_cons_of_mem _ hx))
    simp [rfindIdx, ht, matchesAt, hd]

lemma rfindIdx_append (c : Char) (u b : List Char) (hb : ∀ d ∈ b, d ≠ c) :
    rfindIdx [c] (u ++ c :: b) = some u.length := by
  induction u with
  | nil =>
    simp only [List.nil_append, List.length_nil]
    have hbn : rfindIdx [c] b = none := rfindIdx_none c b hb
    simp [rfindIdx, hbn, matchesAt]
  | cons d u' ih =>
    simp only [List.cons_append, rfindIdx, List.append_eq, ih, List.length_cons]

lemma take_drop_append (u v w : List Char) :
    (((u ++ (v ++ w)).take (u.length + v.length)).drop u.length) = v := by
  rw [← List.append_assoc,
    show u.length + v.length = (u ++ v).length from (List.length_append u v).symm,
    List.take_left, List.drop_left]

lemma py_slice_append (u v w : List Char) :
    py_slice (u ++ (v ++ w)) (u.length : Int) ((u.length : Int) + (v.length : Int)) = v := by
  have hlen : ((u ++ (v ++ w)).length : Int)
      = (u.length : Int) + ((v.length : Int) + (w.length : Int)) := by
    push_cast [List.length_append]
    ring
  simp only [py_slice, hlen]
  rw [if_neg (by omega), if_neg (by omega),
    min_eq_left (by omega), min_eq_left (by omega)]
  have h1 : ((u.length : Int) + (v.length : Int)).toNat = u.length + v.length := by omega
  have h2 : ((u.length : Int)).toNat = u.length := by omega
  rw [h1, h2, take_drop_append]

lemma data_append (s t : String) : (s ++ t).data = s.data ++ t.data := rfl

lemma parse_response_of_fenced (r : String)
    (h : contains_sub r.data "```json".data = true) :
    parse_response r =
      match json_loads (py_strip_str (String.mk (py_slice r.data
          (py_find r "```json" + 7)
          (py_find_from r "```" (py_find r "```json" + 7))))) with
      | .ok v => v
      | .error _ =>
          .dict [("answer", .str r),
                 ("rationale", .str "Response parsing failed"),
                 ("confidence", .num (3/10))] := by
  simp [parse_response, h]

lemma parse_response_of_braces (r : String)
    (h : contains_sub r.data "```json".data = false)
    (h2 : contains_sub r.data "\x7b".data = true)
    (h3 : contains_sub r.data "\x7d".data = true) :
    parse_response r =
      match json_loads (String.mk (py_slice r.data (py_find r "\x7b")
          (py_rfind r "\x7d" + 1))) with
      | .ok v => v
      | .error _ =>
          .dict [("answer", .str r),
                 ("rationale", .str "Response parsing failed"),
                 ("confidence", .num (3/10))] := by
  simp [parse_response, h, h2, h3]

lemma c5aux_fenced (pre mid post : String)
    (hpre : ∀ d ∈ pre.data, d ≠ backquote)
    (hmid : ∀ d ∈ mid.data, d ≠ backquote) :
    parse_response (pre ++ "```json" ++ mid ++ "```" ++ post) =
      match json_loads (py_strip_str mid) with
      | .ok v => v
      | .error _ =>
          .dict [("answer", .str (pre ++ "```json" ++ mid ++ "```" ++ post)),
                 ("rationale", .str "Response parsing failed"),
                 ("confidence", .num (3/10))] := by
  set r := pre ++ "```json" ++ mid ++ "```" ++ post with hr
  have hdata : r.data = pre.data ++ ("```json".data ++ (mid.data ++ ("```".data ++ post.data))) := by
    simp [hr, data_append, List.append_assoc]
  have hfind : findIdx "```json".data r.data = some pre.data.length := by
    rw [hdata, findIdx_append_head _ _ _ backquote (by decide) hpre,
      findIdx_of_matches _ _ (matchesAt_append_self _ _)]
    simp
  have hcont : contains_sub r.data "```json".data = true := by
    rw [contains_sub, hfind]
    rfl
  have hpf : py_find r "```json" = (pre.data.length : Int) := by
    simp only [py_find, hfind]
  have hdrop : r.data.drop ((py_find r "```json" + 7).toNat)
      = mid.data ++ ("```".data ++ post.data) := by
    rw [hpf]
    have ht : (((pre.data.length : Int)) + 7).toNat = pre.data.length + 7 := by omega
    rw [ht, hdata, ← List.append_assoc]
    have hlen : pre.data.length + 7 = (pre.data ++ "```json".data).length := by
      simp [List.length_append, show ("```json".data.length = 7) from rfl]
    rw [hlen, List.drop_left]
  have hfind2 : findIdx "```".data (mid.data ++ ("```".data ++ post.data))
      = some mid.data.length := by
    rw [findIdx_append_head _ _ _ backquote (by decide) hmid,
      findIdx_of_matches _ _ (matchesAt_append_self _ _)]
    simp
  have hpff : py_find_from r "```" (py_find r "```json" + 7)
      = py_find r "```json" + 7 + (mid.data.length : Int) := by
    simp only [py_find_from, hdrop, hfind2]
  have hslice : py_slice r.data (py_find r "```json" + 7)
      (py_find_from r "```" (py_find r "```json" + 7)) = mid.data := by
    rw [hpff, hpf, hdata, ← List.append_assoc]
    have hu : ((pre.data.length : Int)) + 7 = (((pre.data ++ "```json".data).length : Int)) := by
      push_cast [List.length_append, show ("```json".data.length = 7) from rfl]
      ring
    rw [hu]
    exact py_slice_append _ _ _
  rw [parse_response_of_fenced r hcont, hslice]

lemma c5aux_braces (a mid b : String)
    (hng : contains_sub (a ++ "\x7b" ++ mid ++ "\x7d" ++ b).data "```json".data = false)
    (ha : ∀ d ∈ a.data, d ≠ '\x7b')
    (hb : ∀ d ∈ b.data, d ≠ '\x7d') :
    parse_response (a ++ "\x7b" ++ mid ++ "\x7d" ++ b) =
      match json_loads ("\x7b" ++ mid ++ "\x7d") with
      | .ok v => v
      | .error _ =>
          .dict [("answer", .str (a ++ "\x7b" ++ mid ++ "\x7d" ++ b)),
                 ("rationale", .str "Response parsing failed"),
                 ("confidence", .num (3/10))] := by
  set r := a ++ "\x7b" ++ mid ++ "\x7d" ++ b with hr
  have hfind : findIdx "\x7b".data r.data = some a.data.length := by
    rw [show r.data = a.data ++ ("\x7b".data ++ (mid.data ++ ("\x7d".data ++ b.data))) from by
        simp [hr, data_append, List.append_assoc],
      findIdx_append_head _ _ _ '\x7b' (by decide) ha,
      findIdx_of_matches _ _ (matchesAt_append_self _ _)]
    simp
  have h2 : contains_sub r.data "\x7b".data = true := by
    rw [contains_sub, hfind]
    rfl
  have hpf : py_find r "\x7b" = (a.data.length : Int) := by
    simp only [py_find, hfind]
  have hrf : rfindIdx "\x7d".data r.data = some ((a.data ++ '\x7b' :: mid.data).length) := by
    rw [show r.data = (a.data ++ '\x7b' :: mid.data) ++ ('\x7d' :: b.data) from by
        simp [hr, data_append]]
    exact rfindIdx_append '\x7d' _ _ hb
  have h3 : contains_sub r.data "\x7d".data = true := by
    rw [contains_sub]
    rw [findIdx_isSome_iff]
    exact ⟨a.data ++ '\x7b' :: mid.data, b.data, by simp [hr, data_append]⟩
  have hprf : py_rfind r "\x7d" = (((a.data ++ '\x7b' :: mid.data).length : Int)) := by
    simp only [py_rfind, hrf]
  have hslice : py_slice r.data (py_find r "\x7b") (py_rfind r "\x7d" + 1)
      = ("\x7b" ++ mid ++ "\x7d").data := by
    rw [hpf, hprf]
    rw [show r.data = a.data ++ (("\x7b" ++ mid ++ "\x7d").data ++ b.data) from by
        simp [hr, data_append, List.append_assoc]]
    have harith : (((a.data ++ '\x7b' :: mid.data).length : Int)) + 1
        = (a.data.length : Int) + ((("\x7b" ++ mid ++ "\x7d").data.length : Int)) := by
      push_cast [List.length_append, List.length_cons, List.length_nil, data_append]
      ring
    rw [harith]
    exact py_slice_append _ _ _
  rw [parse_response_of_braces r hng h2 h3, hslice]

/-- C5: the tolerant parsing strategy, in precedence order: a
the interior of a ```json fenced block when one is present (no backquotes
before or inside the block), else the substring from the first
opening brace to the last closing brace when both occur, else the
whole raw text becomes the answer with the fixed unparsed rationale
and confidence 0.5; a JSON syntax error yields the raw text as answer
with rationale `Response parsing failed` and confidence 0.3; and
fields missing from a successfully parsed JSON object default to the
fixed answer/rationale strings and confidence 0.5. -/
theorem c5_tolerant_parse :
    (∀ pre mid post : String,
       (∀ d ∈ pre.data, d ≠ backquote) →
       (∀ d ∈ mid.data, d ≠ backquote) →
       parse_response (pre ++ "```json" ++ mid ++ "```" ++ post) =
         match json_loads (py_strip_str mid) with
         | .ok v => v
         | .error _ =>
             .dict [("answer", .str (pre ++ "```json" ++ mid ++ "```" ++ post)),
                    ("rationale", .str "Response parsing failed"),
                    ("confidence", .num (3/10))]) ∧
    (∀ a mid b : String,
       contains_sub (a ++ "\x7b" ++ mid ++ "\x7d" ++ b).data "```json".data = false →
       (∀ d ∈ a.data, d ≠ '\x7b') →
       (∀ d ∈ b.data, d ≠ '\x7d') →
       parse_response (a ++ "\x7b" ++ mid ++ "\x7d" ++ b) =
         match json_loads ("\x7b" ++ mid ++ "\x7d") with
         | .ok v => v
         | .error _ =>
             .dict [("answer", .str (a ++ "\x7b" ++ mid ++ "\x7d" ++ b)),
                    ("rationale", .str "Response parsing failed"),
                    ("confidence", .num (3/10))]) ∧
    (∀ r : String,
       contains_sub r.data "```json".data = false →
       (contains_sub r.data "\x7b".data = false ∨ contains_sub r.data "\x7d".data = false) →
       parse_response r =
         .dict [("answer", .str r),
                ("rationale", .str "Response could not be parsed as JSON"),
                ("confidence", .num (1/2))]) ∧
    (∀ (complete : String → Except String String) (q : String)
       (rcs : List RankedClause) (raw : String) (fields : List (String × PyVal)),
       rcs ≠ [] →
       complete (build_prompt q (build_context rcs)) = .ok raw →
       parse_response raw = .dict fields →
       dict_get fields "answer" = none →
       dict_get fields "rationale" = none →
       dict_get fields "confidence" = none →
       evaluate_decision complete q rcs =
         { answer := .str "Unable to determine answer."
           rationale := .str "Insufficient information to provide rationale."
           relevant_clauses := rcs.take 3
           confidence := .num (1/2) }) := by
  refine ⟨c5aux_fenced, c5aux_braces, ?_, ?_⟩
  · intro r h1 h23
    rcases h23 with h | h
    · simp [parse_response, h1, h]
    · simp [parse_response, h1, h]
  · intro complete q rcs raw fields hne hc hp hda hdr hdc
    cases rcs with
    | nil => exact absurd rfl hne
    | cons rr rs =>
      have hg : get_gpt_response complete (build_prompt q (build_context (rr :: rs))) =
          .ok raw := by
        simp [get_gpt_response, hc]
      simp [evaluate_decision, hg, hp, py_get, hda, hdr, hdc]

/-- Witness for C5 at concrete model outputs exercising all four
branches: a fenced block, a brace span, brace-free prose, and a parsed
object with all fields missing. -/
theorem c5_tolerant_parse_witness :
    parse_response ("Sure: " ++ "```json" ++ " \x7b\"answer\": \"yes\"\x7d " ++ "```" ++ " done") =
      PyVal.dict [("answer", PyVal.str "yes")] ∧
    parse_response ("Answer follows " ++ "\x7b" ++ "\"answer\": \"no\"" ++ "\x7d" ++ " end.") =
      PyVal.dict [("answer", PyVal.str "no")] ∧
    parse_response "no json here" =
      PyVal.dict [("answer", PyVal.str "no json here"),
                  ("rationale", PyVal.str "Response could not be parsed as JSON"),
                  ("confidence", PyVal.num (1/2))] ∧
    evaluate_decision c5_complete "q" [c5_rc] =
      { answer := PyVal.str "Unable to determine answer."
        rationale := PyVal.str "Insufficient information to provide rationale."
        relevant_clauses := [c5_rc]
        confidence := PyVal.num (1/2) } := by
  refine ⟨?_, ?_, ?_, ?_⟩
  · rw [c5_tolerant_parse.1 "Sure: " " \x7b\"answer\": \"yes\"\x7d " " done"
      (by decide) (by decide)]
    with_unfolding_all rfl
  · rw [c5_tolerant_parse.2.1 "Answer follows " "\"answer\": \"no\"" " end."
      (by decide) (by decide) (by decide)]
    with_unfolding_all rfl
  · exact c5_tolerant_parse.2.2.1 "no json here" (by decide) (Or.inl (by decide))
  · exact c5_tolerant_parse.2.2.2 c5_complete "q" [c5_rc] "\x7b\"other\": true\x7d"
      [("other", PyVal.bool true)] (by simp) rfl (by with_unfolding_all rfl) rfl rfl rfl

/-! ### Ordering lemmas for the ranker -/

lemma mem_ins_desc (x z : Cand) (l : List Cand) :
    z ∈ ins_desc x l ↔ z = x ∨ z ∈ l := by
  induction l with
  | nil => simp [ins_desc]
  | cons y ys ih =>
    by_cases h : y.score ≤ x.score
    · simp [ins_desc, h]
    · simp only [ins_desc, h, Bool.false_eq_true, if_false, List.mem_cons, ih]
      tauto

lemma mem_sort_desc (z : Cand) (l : List Cand) : z ∈ sort_desc l ↔ z ∈ l := by
  induction l with
  | nil => simp [sort_desc]
  | cons x xs ih => simp [sort_desc, mem_ins_desc, ih]

lemma pairwise_ins_desc (x : Cand) (l : List Cand)
    (hl : l.Pairwise cand_before) (hx : ∀ y ∈ l, x.idx < y.idx) :
    (ins_desc x l).Pairwise cand_before := by
  induction l with
  | nil => simp [ins_desc]
  | cons y ys ih =>
    rcases List.pairwise_cons.mp hl with ⟨hy, hys⟩
    by_cases h : y.score ≤ x.score
    · simp only [ins_desc, if_pos h]
      refine List.pairwise_cons.mpr ⟨?_, hl⟩
      intro z hz
      rcases List.mem_cons.mp hz with rfl | hz2
      · rcases lt_or_eq_of_le h with hlt | heq
        · exact Or.inl hlt
        · exact Or.inr ⟨heq.symm, hx z (List.mem_cons_self _ _)⟩
      · have hyz := hy z hz2
        rcases hyz with hlt | ⟨heq, _⟩
        · exact Or.inl (lt_of_lt_of_le hlt h)
        · rcases lt_or_eq_of_le h with h2 | h2
          · exact Or.inl (heq ▸ h2)
          · exact Or.inr ⟨(h2.symm.trans heq), hx z (List.mem_cons_of_mem _ hz2)⟩
    · push_neg at h
      simp only [ins_desc, if_neg (not_le.mpr h)]
      refine List.pairwise_cons.mpr
        ⟨?_, ih hys (fun w hw => hx w (List.mem_cons_of_mem _ hw))⟩
      intro z hz
      rcases (mem_ins_desc x z ys).mp hz with rfl | hz2
      · exact Or.inl h
      · exact hy z hz2

lemma pairwise_sort_desc (l : List Cand)
    (h : l.Pairwise (fun a b => a.idx < b.idx)) :
    (sort_desc l).Pairwise cand_before := by
  induction l with
  | nil => simp [sort_desc]
  | cons x xs ih =>
    rcases List.pairwise_cons.mp h with ⟨hx, hxs⟩
    simp only [sort_desc]
    exact pairwise_ins_desc x _ (ih hxs)
      (fun y hy => hx y ((mem_sort_desc y xs).mp hy))

lemma fst_le_of_mem_enumFrom {α : Type _} :
    ∀ (l : List α) (n : Nat) (p : Nat × α), p ∈ List.enumFrom n l → n ≤ p.1
  | [], _, _, h => by simp [List.enumFrom] at h
  | x :: xs, n, p, h => by
    simp only [List.enumFrom] at h
    rcases List.mem_cons.mp h with rfl | h2
    · exact le_refl _
    · exact Nat.le_of_succ_le (fst_le_of_mem_enumFrom xs (n + 1) p h2)

lemma snd_mem_of_mem_enumFrom {α : Type _} :
    ∀ (l : List α) (n : Nat) (p : Nat × α), p ∈ List.enumFrom n l → p.2 ∈ l
  | [], _, _, h => by simp [List.enumFrom] at h
  | x :: xs, n, p, h => by
    simp only [List.enumFrom] at h
    rcases List.mem_cons.mp h with rfl | h2
    · exact List.mem_cons_self _ _
    · exact List.mem_cons_of_mem _ (snd_mem_of_mem_enumFrom xs (n + 1) p h2)

lemma pairwise_fst_enumFrom {α : Type _} :
    ∀ (l : List α) (n : Nat), (List.enumFrom n l).Pairwise (fun p q => p.1 < q.1)
  | [], _ => by simp [List.enumFrom]
  | x :: xs, n => by
    simp only [List.enumFrom]
    refine List.pairwise_cons.mpr ⟨?_, pairwise_fst_enumFrom xs (n + 1)⟩
    intro q hq
    exact Nat.lt_of_lt_of_le (Nat.lt_succ_self n) (fst_le_of_mem_enumFrom xs (n + 1) q hq)

lemma pairwise_enumFrom_of_pairwise {α : Type _} (R : α → α → Prop) :
    ∀ (l : List α) (n : Nat), l.Pairwise R →
      (List.enumFrom n l).Pairwise (fun p q => R p.2 q.2)
  | [], _, _ => by simp [List.enumFrom]
  | x :: xs, n, h => by
    rcases List.pairwise_cons.mp h with ⟨hx, hxs⟩
    simp only [List.enumFrom]
    refine List.pairwise_cons.mpr ⟨?_, pairwise_enumFrom_of_pairwise R xs (n + 1) hxs⟩
    intro q hq
    exact hx q.2 (snd_mem_of_mem_enumFrom xs (n + 1) q hq)

lemma relevant_eq :
    ∀ (l : List Cand) (n : Nat),
      l.Pairwise (fun a b => b.score ≤ a.score) →
      (List.enumFrom n l).filterMap (fun p =>
          if (3 : ℚ)/10 < p.2.score then
            some (⟨p.2.clause, p.2.score, p.1 + 1⟩ : RankedClause)
          else none)
        = (List.enumFrom n (l.filter (fun c => (3 : ℚ)/10 < c.score))).map
            (fun p => (⟨p.2.clause, p.2.score, p.1 + 1⟩ : RankedClause))
  | [], n, _ => by simp [List.enumFrom]
  | x :: xs, n, h => by
    rcases List.pairwise_cons.mp h with ⟨hx, hxs⟩
    by_cases hscore : (3 : ℚ)/10 < x.score
    · rw [show List.enumFrom n (x :: xs) = (n, x) :: List.enumFrom (n + 1) xs from rfl,
        List.filterMap_cons, List.filter_cons_of_pos (by simpa using hscore)]
      simp only [if_pos hscore]
      rw [show List.enumFrom n (x :: xs.filter (fun c => decide ((3 : ℚ)/10 < c.score)))
          = (n, x) :: List.enumFrom (n + 1) (xs.filter (fun c => decide ((3 : ℚ)/10 < c.score)))
          from rfl,
        List.map_cons, relevant_eq xs (n + 1) hxs]
    · have hall : ∀ y ∈ xs, ¬((3 : ℚ)/10 < y.score) :=
        fun y hy hlt => hscore (lt_of_lt_of_le hlt (hx y hy))
      have hfm : (List.enumFrom (n + 1) xs).filterMap (fun p =>
          if (3 : ℚ)/10 < p.2.score then
            some (⟨p.2.clause, p.2.score, p.1 + 1⟩ : RankedClause)
          else none) = [] := by
        rw [List.filterMap_eq_nil_iff]
        intro p hp
        rw [if_neg (hall p.2 (snd_mem_of_mem_enumFrom xs (n + 1) p hp))]
      have hfil : xs.filter (fun c => decide ((3 : ℚ)/10 < c.score)) = [] := by
        rw [List.filter_eq_nil_iff]
        intro c hc
        simpa using hall c hc
      rw [show List.enumFrom n (x :: xs) = (n, x) :: List.enumFrom (n + 1) xs from rfl,
        List.filterMap_cons, List.filter_cons_of_neg (by simpa using hscore)]
      simp only [if_neg hscore, hfm, hfil]
      simp [List.enumFrom]

lemma sort_desc_rc_sorted (l : List RankedClause)
    (h : l.Pairwise (fun a b => b.similarity_score ≤ a.similarity_score)) :
    sort_desc_rc l = l := by
  induction l with
  | nil => rfl
  | cons x xs ih =>
    rcases List.pairwise_cons.mp h with ⟨hx, hxs⟩
    simp only [sort_desc_rc, ih hxs]
    cases xs with
    | nil => rfl
    | cons y ys =>
      simp only [ins_desc_rc, if_pos (hx y (List.mem_cons_self _ _))]

lemma map_fst_succ_enumFrom {α : Type _} :
    ∀ (l : List α) (n : Nat),
      (List.enumFrom n l).map (fun p => p.1 + 1) = List.range' (n + 1) l.length
  | [], n => by simp [List.enumFrom, List.range']
  | x :: xs, n => by
    rw [show List.enumFrom n (x :: xs) = (n, x) :: List.enumFrom (n + 1) xs from rfl,
      List.map_cons, List.length_cons,
      show List.range' (n + 1) (xs.length + 1) = (n + 1) :: List.range' (n + 2) xs.length
        from rfl,
      map_fst_succ_enumFrom xs (n + 1)]

/-- C3: in every sequence returned by the (spec-modelled) ranker, the
clauses are exactly the surviving candidates in result order, the
survivors are ordered strictly by descending similarity with ties
broken by ascending original clause position (`cand_before`), the
`rank` fields are the contiguous values `1..N` in list order, the
returned sequence is sorted by descending `similarity_score`, every
survivor exceeds the 0.3 threshold, and at most `min 5 (len clauses)`
survive. -/
theorem c3_rank_invariant (q : List ℚ) (ce : List (List ℚ)) (cs : List Clause) :
    find_similar_clauses q ce cs =
      (List.enumFrom 0 (selected_cands q ce cs)).map
        (fun p => (⟨p.2.clause, p.2.score, p.1 + 1⟩ : RankedClause)) ∧
    (selected_cands q ce cs).Pairwise cand_before ∧
    (find_similar_clauses q ce cs).map RankedClause.rank =
      List.range' 1 (find_similar_clauses q ce cs).length ∧
    (find_similar_clauses q ce cs).Pairwise
      (fun x y => y.similarity_score ≤ x.similarity_score) ∧
    (∀ x ∈ find_similar_clauses q ce cs, (3 : ℚ)/10 < x.similarity_score) ∧
    (find_similar_clauses q ce cs).length ≤ min 5 cs.length := by
  have hcand : (candidates q ce cs).Pairwise (fun a b => a.idx < b.idx) := by
    rw [candidates, List.pairwise_map]
    exact (pairwise_fst_enumFrom _ 0).imp (fun h => h)
  have hsorted := pairwise_sort_desc _ hcand
  have htopk_pw : ((sort_desc (candidates q ce cs)).take (min 5 cs.length)).Pairwise
      cand_before := hsorted.sublist (List.take_sublist _ _)
  have htopk_desc : ((sort_desc (candidates q ce cs)).take (min 5 cs.length)).Pairwise
      (fun a b => b.score ≤ a.score) := by
    refine htopk_pw.imp ?_
    rintro a b (h | ⟨h, _⟩)
    · exact le_of_lt h
    · exact le_of_eq h.symm
  have hsel_pw : (selected_cands q ce cs).Pairwise cand_before :=
    htopk_pw.sublist (List.filter_sublist _)
  have hsel_desc : (selected_cands q ce cs).Pairwise (fun a b => b.score ≤ a.score) :=
    htopk_desc.sublist (List.filter_sublist _)
  have hpw_rc : ((List.enumFrom 0 (selected_cands q ce cs)).map
      (fun p => (⟨p.2.clause, p.2.score, p.1 + 1⟩ : RankedClause))).Pairwise
      (fun x y => y.similarity_score ≤ x.similarity_score) := by
    rw [List.pairwise_map]
    exact (pairwise_enumFrom_of_pairwise _ _ 0 hsel_desc).imp (fun h => h)
  have hout : find_similar_clauses q ce cs =
      (List.enumFrom 0 (selected_cands q ce cs)).map
        (fun p => (⟨p.2.clause, p.2.score, p.1 + 1⟩ : RankedClause)) := by
    have h1 : find_similar_clauses q ce cs =
        sort_desc_rc ((List.enumFrom 0 (selected_cands q ce cs)).map
          (fun p => (⟨p.2.clause, p.2.score, p.1 + 1⟩ : RankedClause))) := by
      simp only [find_similar_clauses, List.enum]
      rw [relevant_eq _ 0 htopk_desc]
      rfl
    rw [h1, sort_desc_rc_sorted _ hpw_rc]
  refine ⟨hout, hsel_pw, ?_, ?_, ?_, ?_⟩
  · rw [hout, List.map_map, List.length_map, List.enumFrom_length]
    exact map_fst_succ_enumFrom _ 0
  · rw [hout]
    exact hpw_rc
  · rw [hout]
    intro x hx
    rcases List.mem_map.mp hx with ⟨p, hp, rfl⟩
    have hmem := snd_mem_of_mem_enumFrom _ 0 p hp
    have := (List.mem_filter.mp hmem).2
    simpa using this
  · rw [hout, List.length_map, List.enumFrom_length]
    refine le_trans (List.length_filter_le _ _) ?_
    rw [List.length_take]
    exact min_le_left _ _

/-- Witness for C3 at a concrete two-clause ranking: ranks come out as
`[1, 2]` and the concrete top survivor exceeds the threshold. -/
theorem c3_rank_invariant_witness :
    (find_similar_clauses [1] [[1], [2]] [c3_clause_a, c3_clause_b]).map RankedClause.rank =
      List.range' 1 (find_similar_clauses [1] [[1], [2]] [c3_clause_a, c3_clause_b]).length ∧
    (3 : ℚ)/10 < (⟨c3_clause_b, 2, 1⟩ : RankedClause).similarity_score :=
  ⟨(c3_rank_invariant [1] [[1], [2]] [c3_clause_a, c3_clause_b]).2.2.1,
   (c3_rank_invariant [1] [[1], [2]] [c3_clause_a, c3_clause_b]).2.2.2.2.1
     ⟨c3_clause_b, 2, 1⟩ (by with_unfolding_all decide)⟩
